import Mathlib

/-!
Verification of the WodWisdom ingestion scripts.

Shallow embedding of the three Python scripts of the repository:
  scripts/ingest.py, scripts/batch_ingest.py, scripts/ingest_kids.py.

Pure string manipulation (URL normalization, OCR cleanup, slicing) is
translated directly; network and filesystem effects are passed in as
explicit oracle values; the per-item exception handling of the batch
loops is modelled by an explicit event type distinguishing ordinary
exceptions (caught by the `except Exception` handler) from SystemExit
raised by `sys.exit` (not caught, since SystemExit does not derive from
Exception).
-/

/-! ## Python string primitives (ASCII fragment) -/

/-- Python whitespace (the Latin-1 characters for which `str.isspace()`
holds, stripped by `str.strip()` and matched by the regex class `\s`):
space, tab, newline, carriage return, vertical tab, form feed, the
information separators `\x1c`-`\x1f`, next line, and no-break space. -/
def pySpace (c : Char) : Bool :=
  c == ' ' || c == '\t' || c == '\n' || c == '\r' || c == '\x0b' || c == '\x0c' ||
  c == '\x1c' || c == '\x1d' || c == '\x1e' || c == '\x1f' || c == '\x85' || c == '\xa0'

/-- Regex `\w`: alphanumeric or underscore (ASCII fragment). -/
def pyWord (c : Char) : Bool := c.isAlphanum || c == '_'

/-- Drop trailing Python whitespace: the mirror half of `str.strip()`. -/
def dropTrailWs (l : List Char) : List Char :=
  (l.reverse.dropWhile pySpace).reverse

/-- Python `str.strip()` on a character list. -/
def pyStripL (l : List Char) : List Char :=
  dropTrailWs (l.dropWhile pySpace)

/-- Python `str.strip()`. -/
def pyStrip (s : String) : String := ⟨pyStripL s.data⟩

/-- Python `str.lower()` (ASCII fragment). -/
def pyLower (s : String) : String := ⟨s.data.map Char.toLower⟩

/-- Python `haystack.startswith(needle)`. -/
def pyStartsWith (s pre : String) : Bool := pre.data.isPrefixOf s.data

/-- Python `haystack.endswith(needle)`. -/
def pyEndsWith (s suf : String) : Bool := suf.data.isSuffixOf s.data

/-- Python `needle in haystack` (substring containment). -/
def containsSub (pat : List Char) : List Char → Bool
  | [] => pat.isPrefixOf []
  | c :: rest => pat.isPrefixOf (c :: rest) || containsSub pat rest

/-- Python `str.title()` (ASCII fragment): upper-case a letter whose
predecessor is not a letter, lower-case a letter whose predecessor is. -/
def pyTitleAux : List Char → Bool → List Char
  | [], _ => []
  | c :: rest, prevAlpha =>
    (if c.isAlpha then (if prevAlpha then c.toLower else c.toUpper) else c)
      :: pyTitleAux rest c.isAlpha

/-- Python `str.title()` on a character list. -/
def pyTitleL (l : List Char) : List Char := pyTitleAux l false

/-- `filename.replace("-", " ").replace("_", " ")` (both separators are
single characters, so the two substitutions are character maps). -/
def replaceSepsL (l : List Char) : List Char :=
  (l.map (fun c => if c = '-' then ' ' else c)).map (fun c => if c = '_' then ' ' else c)

/-! ## A small regex engine

Every quantifier occurring in the seven OCR-artifact patterns of
`scripts/ingest_kids.py` and in the PMC pattern of `scripts/ingest.py`
applies to a single character class, so a pattern is a sequence of
items, each either a literal or a quantified character class, with one
level of alternation over such sequences.  Matching enumerates the
candidate consumption lengths of each item in the backtracking priority
order of CPython's `re` engine (greedy quantifiers high-to-low,
alternation branches left-to-right) and takes the first full match. -/

/-- A quantified regex atom: a literal, or a character class with a
minimum count and an optional maximum count (none = unbounded). -/
inductive RAtom where
  | rlit (cs : List Char)
  | rcls (p : Char → Bool) (lo : Nat) (hi : Option Nat)

/-- A pattern item: an atom, or an alternation over atom sequences. -/
inductive RItem where
  | ratom (a : RAtom)
  | ralt (branches : List (List RAtom))

/-- Candidate consumption lengths of a quantified class at the head of
`s`, greedily ordered (largest first). -/
def clsLens (p : Char → Bool) (lo : Nat) (hi : Option Nat) (s : List Char) : List Nat :=
  let avail := (s.takeWhile p).length
  let top := match hi with
    | none => avail
    | some h => min h avail
  if top < lo then [] else (List.range (top + 1 - lo)).map (fun i => top - i)

/-- Candidate consumption lengths of one atom at the head of `s`. -/
def atomLens : RAtom → List Char → List Nat
  | .rlit cs, s => if cs.isPrefixOf s then [cs.length] else []
  | .rcls p lo hi, s => clsLens p lo hi s

/-- Candidate consumption lengths of an atom sequence, in backtracking
priority order. -/
def seqLens : List RAtom → List Char → List Nat
  | [], _ => [0]
  | a :: as, s =>
    (atomLens a s).flatMap (fun k => (seqLens as (s.drop k)).map (fun m => k + m))

/-- Candidate consumption lengths of one pattern item. -/
def itemLens : RItem → List Char → List Nat
  | .ratom a, s => atomLens a s
  | .ralt bs, s => bs.flatMap (fun b => seqLens b s)

/-- Multiline `$`: end of string or immediately before a newline. -/
def atEol : List Char → Bool
  | [] => true
  | c :: _ => c == '\n'

/-- Match a pattern (implicitly terminated by a multiline `$`) at the
head of `s`; return the number of characters consumed by the first
match in backtracking priority order. -/
def matchItems : List RItem → List Char → Option Nat
  | [], s => if atEol s then some 0 else none
  | it :: items, s =>
    (itemLens it s).findSome? (fun k => (matchItems items (s.drop k)).map (fun m => k + m))

/-- One pass of `re.sub(pattern, "", text)` for a `^...$`-anchored
multiline pattern: scan left to right, try the pattern at each
line-start position, delete each (non-overlapping) match.  `atLS` says
whether the current position starts a line; `fuel` bounds the recursion
(matches consume at least one character, so `fuel = length` suffices). -/
def reSubAux (pat : List RItem) : Nat → List Char → Bool → List Char
  | 0, s, _ => s
  | _ + 1, [], _ => []
  | fuel + 1, c :: rest, atLS =>
    if atLS then
      match matchItems pat (c :: rest) with
      | some n =>
        if n = 0 then c :: reSubAux pat fuel rest (c == '\n')
        else
          reSubAux pat fuel ((c :: rest).drop n)
            (((c :: rest).take n).getLast? == some '\n')
      | none => c :: reSubAux pat fuel rest (c == '\n')
    else c :: reSubAux pat fuel rest (c == '\n')

/-- `re.sub(pattern, "", text)` with `re.MULTILINE` for a `^...$` pattern. -/
def reSub (pat : List RItem) (l : List Char) : List Char :=
  reSubAux pat l.length l true

/-! ## OCR artifact patterns (`scripts/ingest_kids.py`) -/

/-- Regex item `\s*`. -/
def sStar : RItem := .ratom (.rcls pySpace 0 none)

/-- Regex item `\s+`. -/
def sPlus : RItem := .ratom (.rcls pySpace 1 none)

/-- Regex item `\d+`. -/
def dPlus : RItem := .ratom (.rcls Char.isDigit 1 none)

/-- Regex item `\w+`. -/
def wPlus : RItem := .ratom (.rcls pyWord 1 none)

/-- A literal pattern item. -/
def litI (s : String) : RItem := .ratom (.rlit s.data)

/-- Regex item `c?` for a single character `c`. -/
def optC (c : Char) : RItem := .ratom (.rcls (fun x => x == c) 0 (some 1))

/-- Regex item `[cs]` (one character from a set). -/
def oneOf (cs : List Char) : RItem := .ratom (.rcls (fun x => cs.contains x) 1 (some 1))

/-- `PAGE_HEADER_RE`:
`^(METHODOLOGY|MOVEMENTS|POST-COURSE RESOURCES?)\s+CrossFit Kids Training Guide\s*\|\s*CrossFit\s*$`. -/
def PAGE_HEADER_RE : List RItem :=
  [.ralt [[.rlit ("METHODOLOGY").data],
          [.rlit ("MOVEMENTS").data],
          [.rlit ("POST-COURSE RESOURCE").data, .rcls (fun x => x == 'S') 0 (some 1)]],
   sPlus, litI ("CrossFit Kids Training Guide"), sStar, litI ("|"), sStar,
   litI ("CrossFit"), sStar]

/-- `PAGE_FOOTER_RE`:
`^\|?\s*CrossFit\s+CrossFit Kids Training Guide\s*\|\s*\d+\s+of\s+\d+\s*$`. -/
def PAGE_FOOTER_RE : List RItem :=
  [optC '|', sStar, litI ("CrossFit"), sPlus, litI ("CrossFit Kids Training Guide"),
   sStar, litI ("|"), sStar, dPlus, sPlus, litI ("of"), sPlus, dPlus, sStar]

/-- `COPYRIGHT_RE`: `^Copyright © \d{4} CrossFit, LLC\. All Rights Reserved\.\s*$`. -/
def COPYRIGHT_RE : List RItem :=
  [litI ("Copyright © "), .ratom (.rcls Char.isDigit 4 (some 4)),
   litI (" CrossFit, LLC. All Rights Reserved."), sStar]

/-- `VERSION_RE`: `^\d+\.\d+-\d+\w+\s*$`. -/
def VERSION_RE : List RItem :=
  [dPlus, litI ("."), dPlus, litI ("-"), dPlus, wPlus, sStar]

/-- `CROSSFIT_LOGO_RE`: `^«?\s*[Cc]ross[Ff]it\s*$`. -/
def CROSSFIT_LOGO_RE : List RItem :=
  [optC '«', sStar, oneOf ['C', 'c'], litI ("ross"), oneOf ['F', 'f'], litI ("it"), sStar]

/-- `PAGE_NUM_RE`: `^CrossFit Kids Training Guide\s*\|\s*\d+\s+of\s+\d+\s*$`. -/
def PAGE_NUM_RE : List RItem :=
  [litI ("CrossFit Kids Training Guide"), sStar, litI ("|"), sStar, dPlus, sPlus,
   litI ("of"), sPlus, dPlus, sStar]

/-- `CONTINUED_HEADER_RE`:
`^(CrossFit Kids Science|CrossFit Kids Nutrition and Lifestyle[^,]*|Movements|Protecting CrossFit Kids From Predation|Frequently Asked Questions|Equipment List|Class Structure),\s*continued\s*$`. -/
def CONTINUED_HEADER_RE : List RItem :=
  [.ralt [[.rlit ("CrossFit Kids Science").data],
          [.rlit ("CrossFit Kids Nutrition and Lifestyle").data,
           .rcls (fun x => x != ',') 0 none],
          [.rlit ("Movements").data],
          [.rlit ("Protecting CrossFit Kids From Predation").data],
          [.rlit ("Frequently Asked Questions").data],
          [.rlit ("Equipment List").data],
          [.rlit ("Class Structure").data]],
   litI (","), sStar, litI ("continued"), sStar]

/-- The seven artifact-removal substitutions of `clean_ocr_text`, in
source order. -/
def ocrSubsL (l : List Char) : List Char :=
  reSub CONTINUED_HEADER_RE
    (reSub PAGE_NUM_RE
      (reSub CROSSFIT_LOGO_RE
        (reSub VERSION_RE
          (reSub COPYRIGHT_RE
            (reSub PAGE_FOOTER_RE
              (reSub PAGE_HEADER_RE l))))))

/-- `re.sub(r"\n{4,}", "\n\n\n", text)` emits a pending run of `k`
newlines: a run of four or more collapses to exactly three. -/
def emitNl (k : Nat) : List Char := List.replicate (if 4 ≤ k then 3 else k) '\n'

/-- Collapse every maximal run of four or more newlines to three.
`k` counts the newlines of the run currently being scanned. -/
def collapseAux : List Char → Nat → List Char
  | [], k => emitNl k
  | c :: rest, k =>
    if c = '\n' then collapseAux rest (k + 1)
    else emitNl k ++ c :: collapseAux rest 0

/-- `re.sub(r"\n{4,}", "\n\n\n", text)`. -/
def collapseNl (l : List Char) : List Char := collapseAux l 0

/-- `noRun4From l k = true` iff `l`, entered with a pending run of `k`
newlines, never accumulates a run of four consecutive newlines. -/
def noRun4From : List Char → Nat → Bool
  | [], _ => true
  | c :: rest, k =>
    if c = '\n' then decide (k < 3) && noRun4From rest (k + 1)
    else noRun4From rest 0

/-- `clean_ocr_text` on a character list: the seven pattern
substitutions, blank-line collapsing, final strip. -/
def cleanL (l : List Char) : List Char := pyStripL (collapseNl (ocrSubsL l))

/-- `clean_ocr_text(text)` from `scripts/ingest_kids.py`. -/
def clean_ocr_text (s : String) : String := ⟨cleanL s.data⟩

/-- The seven substitutions alone, at string level (used to state when
the cleanup has reached a fixed point of its removal rules). -/
def ocrSubs (s : String) : String := ⟨ocrSubsL s.data⟩

/-! ## Corpus segmentation (`scripts/ingest_kids.py`, `main`)

A section boundary is a hand-curated 1-indexed inclusive line range.
The loop slices `lines[start_line - 1 : end_line]`, joins, cleans, and
skips the section when the cleaned text is empty after trimming;
otherwise it submits a payload and counts the outcome. -/

/-- A section boundary entry of the `SECTIONS` table. -/
structure GuideSection where
  title : String
  start_line : Nat
  end_line : Nat
  category : String
  author : String
  source : String
deriving DecidableEq

/-- The Python slice `lines[start_line - 1 : end_line]`. -/
def sliceLines (lines : List String) (startLine endLine : Nat) : List String :=
  (lines.drop (startLine - 1)).take (endLine - (startLine - 1))

/-- The raw (pre-clean) slices the loop takes for a list of
`(start_line, end_line)` boundary pairs. -/
def segmentRawSlices (lines : List String) (bs : List (Nat × Nat)) : List (List String) :=
  bs.map (fun b => sliceLines lines b.1 b.2)

/-- `"".join(lines[start : end])` for one section. -/
def sectionRaw (lines : List String) (sec : GuideSection) : String :=
  String.join (sliceLines lines sec.start_line sec.end_line)

/-- The cleaned text of one section. -/
def sectionClean (lines : List String) (sec : GuideSection) : String :=
  clean_ocr_text (sectionRaw lines sec)

/-- The segmenter's output: each section paired with its cleaned text,
with sections whose cleaned text is empty after trimming omitted. -/
def segmentSections (lines : List String) (secs : List GuideSection) :
    List (GuideSection × String) :=
  secs.filterMap (fun sec =>
    let cleaned := sectionClean lines sec
    if pyStrip cleaned = "" then none else some (sec, cleaned))

/-- The running counters and attempted submissions of the
`ingest_kids.py` main loop. -/
structure KidsReport where
  succeeded : Nat
  errors : Nat
  submitted : List String
deriving DecidableEq

/-- One iteration of the `ingest_kids.py` main loop (non-dry-run): skip
an empty-after-cleaning section, otherwise attempt the submission; `ok`
is the oracle telling whether `send_to_ingest` succeeds or raises. -/
def kidsStep (lines : List String) (ok : GuideSection → Bool)
    (st : KidsReport) (sec : GuideSection) : KidsReport :=
  let cleaned := sectionClean lines sec
  if pyStrip cleaned = "" then st
  else
    let st := { st with submitted := st.submitted ++ [sec.title] }
    if ok sec then { st with succeeded := st.succeeded + 1 }
    else { st with errors := st.errors + 1 }

/-- The `ingest_kids.py` main loop over a section table. -/
def kidsRun (lines : List String) (secs : List GuideSection)
    (ok : GuideSection → Bool) : KidsReport :=
  secs.foldl (kidsStep lines ok) ⟨0, 0, []⟩

/-! ## URL classification and normalization (`scripts/ingest.py`) -/

/-- A character allowed in a URL scheme by `urllib.parse`. -/
def schemeChar (c : Char) : Bool := c.isAlphanum || c == '+' || c == '-' || c == '.'

/-- Split off the scheme of a URL as `urllib.parse.urlsplit` does: a
run of scheme characters starting with an ASCII letter, before the
first `:`.  Returns the lower-cased scheme (empty when absent) and the
remainder. -/
def splitSchemeL (l : List Char) : List Char × List Char :=
  let pre := l.takeWhile (fun c => c != ':')
  if pre.length < l.length && (pre.headD (' ')).isAlpha && pre.all schemeChar then
    (pre.map Char.toLower, l.drop (pre.length + 1))
  else ([], l)

/-- The schemes for which `urlparse` splits `;params` off the last path
segment (`urllib.parse.uses_params`). -/
def uses_params : List (List Char) :=
  [[], ("ftp").data, ("hdl").data, ("prospero").data, ("http").data, ("imap").data,
   ("https").data, ("shttp").data, ("rtsp").data, ("rtspu").data, ("sip").data,
   ("sips").data, ("mms").data, ("sftp").data, ("tel").data]

/-- Index of the last `/` in a path, if any (Python `str.rfind`). -/
def lastSlashIdx (l : List Char) : Option Nat :=
  match l.reverse.findIdx? (fun c => c == '/') with
  | some j => some (l.length - 1 - j)
  | none => none

/-- `url.find(';', start)`: index of the first `;` at or after `start`. -/
def semiIdxFrom (start : Nat) (l : List Char) : Option Nat :=
  match (l.drop start).findIdx? (fun c => c == ';') with
  | some j => some (start + j)
  | none => none

/-- `urllib.parse._splitparams(path)[0]`: cut the path at the first `;`
of its last segment (at the first `;` anywhere when the path has no
`/`); leave it unchanged when that segment has no `;`. -/
def splitParamsL (path : List Char) : List Char :=
  match lastSlashIdx path with
  | some s =>
    match semiIdxFrom s path with
    | some i => path.take i
    | none => path
  | none =>
    match path.findIdx? (fun c => c == ';') with
    | some i => path.take i
    | none => path

/-- `urllib.parse.urlparse(url).path` on a character list: drop the
fragment, the scheme, and the `//netloc` part, drop the query, and for
a scheme in `uses_params` split `;params` off the last path segment. -/
def pyUrlPathL (l : List Char) : List Char :=
  let l1 := l.takeWhile (fun c => c != '#')
  let sr := splitSchemeL l1
  let l3 :=
    if ("//").data.isPrefixOf sr.2 then
      (sr.2.drop 2).dropWhile (fun c => c != '/' && c != '?' && c != '#')
    else sr.2
  let path := l3.takeWhile (fun c => c != '?')
  if uses_params.contains sr.1 && path.contains ';' then splitParamsL path else path

/-- `urlparse(url).path`. -/
def pyUrlPath (s : String) : String := ⟨pyUrlPathL s.data⟩

/-- Index of the last `.` in a name, if any (Python `str.rfind`). -/
def lastDotIdx (l : List Char) : Option Nat :=
  match l.reverse.findIdx? (fun c => c == '.') with
  | some j => some (l.length - 1 - j)
  | none => none

/-- `pathlib` stem of a final path component: cut at the last dot when
that dot is neither leading nor trailing. -/
def stemOfName (name : List Char) : List Char :=
  match lastDotIdx name with
  | some i => if 0 < i ∧ i < name.length - 1 then name.take i else name
  | none => name

/-- Split a character list on a separator character. -/
def splitOnChar (sep : Char) : List Char → List (List Char)
  | [] => [[]]
  | c :: rest =>
    if c = sep then [] :: splitOnChar sep rest
    else
      match splitOnChar sep rest with
      | [] => [[c]]
      | g :: gs => (c :: g) :: gs

/-- `pathlib.Path(p).name`: the last nonempty `/`-separated component. -/
def pathNameL (l : List Char) : List Char :=
  ((splitOnChar '/' l).filter (fun g => !g.isEmpty)).getLastD []

/-- `pathlib.Path(p).stem` on a character list. -/
def pathStemL (l : List Char) : List Char := stemOfName (pathNameL l)

/-- `pathlib.Path(p).stem`. -/
def pathStem (s : String) : String := ⟨pathStemL s.data⟩

/-- The PMC viewer pattern opening with the `https` scheme. -/
def pmcHttps : List Char := ("https://pmc.ncbi.nlm.nih.gov/articles/PMC").data

/-- The PMC viewer pattern opening with the `http` scheme. -/
def pmcHttp : List Char := ("http://pmc.ncbi.nlm.nih.gov/articles/PMC").data

/-- Strip an expected literal from the head of a list, returning the
remainder on success. -/
def stripPfx : List Char → List Char → Option (List Char)
  | [], l => some l
  | _ :: _, [] => none
  | p :: ps, c :: cs => if p = c then stripPfx ps cs else none

/-- Scan for an occurrence of `.pdf` at the current position or later,
with no newline before it (the `.+` of the pattern excludes newlines). -/
def dotPdfFrom : List Char → Bool
  | [] => false
  | c :: rest => (".pdf").data.isPrefixOf (c :: rest) || (c != '\n' && dotPdfFrom rest)

/-- The suffix part `.+\.pdf` of the PMC viewer pattern: at least one
non-newline character followed by a `.pdf` occurrence. -/
def dotPdfAfterOne : List Char → Bool
  | [] => false
  | c :: rest => c != '\n' && dotPdfFrom rest

/-- The part of the PMC viewer pattern after the scheme-and-host
literal `pre`: the greedy digit run `\d+` (maximal, since the next
pattern character `/` is not a digit), the literal `/pdf/`, then
`.+\.pdf`; on success the capture group is `pre` plus the digits. -/
def pmcMatchRest (pre r2 : List Char) : Option (List Char) :=
  let ds := r2.takeWhile Char.isDigit
  if ds.isEmpty then none
  else
    match stripPfx (("/pdf/").data) (r2.drop ds.length) with
    | none => none
    | some r3 => if dotPdfAfterOne r3 then some (pre ++ ds) else none

/-- `re.match(r"(https?://pmc\.ncbi\.nlm\.nih\.gov/articles/PMC\d+)/pdf/.+\.pdf", url)`,
returning the first capture group on success.  `https?` followed by the
host literal is the alternation of two literals, and a string cannot
start with both, so the two branches are mutually exclusive. -/
def pmcMatchL (l : List Char) : Option (List Char) :=
  match stripPfx pmcHttps l with
  | some r2 => pmcMatchRest pmcHttps r2
  | none =>
    match stripPfx pmcHttp l with
    | some r2 => pmcMatchRest pmcHttp r2
    | none => none

/-- `normalize_url(url)` from `scripts/ingest.py`: rewrite a PMC PDF
viewer URL to the parent article path, leave anything else unchanged. -/
def normalize_url (u : String) : String :=
  match pmcMatchL u.data with
  | some p => ⟨p ++ ['/']⟩
  | none => u

/-- The outcome of the `requests.head` Content-Type probe: a response
carrying a `Content-Type` header value (absent header reads as `""`),
or a raised `requests.RequestException`. -/
inductive ProbeResult where
  | ok (contentType : String)
  | err
deriving DecidableEq

/-- `is_pdf_url(url)` from `scripts/ingest.py`, with the HEAD probe
passed in as an oracle.  Besides the boolean result, the second
component counts how many HEAD requests were issued. -/
def is_pdf_url (probe : ProbeResult) (url : String) : Bool × Nat :=
  let path := pyLower (pyUrlPath url)
  if (".pdf").data.isSuffixOf path.data then (true, 0)
  else
    match probe with
    | .ok ct => (containsSub (("application/pdf").data) ct.data, 1)
    | .err => (false, 1)

/-! ## Extraction strategies (`scripts/ingest.py`) -/

/-- `_MIN_CONTENT_LENGTH`: minimum characters of body text before the
JS-rendering fallback is considered. -/
def _MIN_CONTENT_LENGTH : Nat := 200

/-- `extract_web_text(url)`: the statically parsed `(title, text)` and
the headless-rendered `(title, text)` are oracles; the second component
counts how many times the rendered fallback ran. -/
def extract_web_text (static rendered : String × String) : (String × String) × Nat :=
  if _MIN_CONTENT_LENGTH ≤ (pyStrip static.2).length then (static, 0)
  else (rendered, 1)

/-- The response observed by `download_pdf`: its `Content-Type` header,
whether the body starts with the `%PDF-` signature, the HTML-parsed
`(title, text)` fallback, and the text extracted from the PDF body. -/
structure DlEnv where
  contentType : String
  bodyStartsPdf : Bool
  htmlFallback : String × String
  pdfText : String
deriving DecidableEq

/-- `download_pdf(url)` from `scripts/ingest.py`: classify the response
body, fall back to HTML parsing for non-PDF payloads, otherwise derive
the title from the URL path filename. -/
def download_pdf (env : DlEnv) (url : String) : String × String :=
  let is_pdf := containsSub (("application/pdf").data) env.contentType.data || env.bodyStartsPdf
  if !is_pdf then env.htmlFallback
  else
    let filename := pathStem (pyUrlPath url)
    let title := if filename = "" then "" else ⟨pyTitleL (replaceSepsL filename.data)⟩
    (title, env.pdfText)

/-- `guess_title_from_pdf(path)`: filename stem with separators replaced
by spaces, title-cased. -/
def guess_title_from_pdf (path : String) : String :=
  ⟨pyTitleL (replaceSepsL (pathStemL path.data))⟩

/-! ## Metadata assembly and `process_one` (`scripts/ingest.py`) -/

/-- The parsed command-line flags relevant to `process_one`. -/
structure IngestArgs where
  title : Option String
  author : Option String
  category : Option String
  source : Option String
  source_url : Option String
  batch : Bool
deriving DecidableEq

/-- Python truthiness of an optional string (`None` and `""` are falsy). -/
def pyTruthy : Option String → Bool
  | none => false
  | some s => s ≠ ""

/-- Python `a or b` on optional strings. -/
def pyOr (a b : Option String) : Option String := if pyTruthy a then a else b

/-- `input(...).strip() or None`. -/
def strOrNone (s : String) : Option String :=
  let t := pyStrip s
  if t = "" then none else some t

/-- The article metadata dictionary. -/
structure ArticleMeta where
  title : String
  author : Option String
  category : Option String
  source : Option String
  source_url : Option String
deriving DecidableEq

/-- The raw console answers of the interactive prompt. -/
structure PromptIn where
  title : String
  author : String
  category : String
  source : String
  source_url : String
deriving DecidableEq

/-- `prompt_metadata(auto_title)` with the console answers as oracles. -/
def prompt_metadata (inp : PromptIn) (auto_title : String) : ArticleMeta :=
  let t := pyStrip inp.title
  { title := if t = "" then auto_title else t
    author := strOrNone inp.author
    category := strOrNone inp.category
    source := strOrNone inp.source
    source_url := strOrNone inp.source_url }

/-- The payload POSTed to the ingest sink: metadata plus content. -/
structure IngestPayload where
  title : String
  author : Option String
  category : Option String
  source : Option String
  source_url : Option String
  content : String
deriving DecidableEq

/-- All effect oracles consumed by one `process_one` call. -/
structure IngestEnv where
  probe : ProbeResult
  static : String × String
  render : String × String
  dl : DlEnv
  fileText : String
  localPdfText : String
  promptIn : PromptIn
deriving DecidableEq

/-- The auto-detected title, extracted content and auto source URL of
one target. -/
structure ExtractionResult where
  auto_title : String
  content : String
  auto_source_url : Option String
deriving DecidableEq

/-- The extraction branch of `process_one`: PDF URL, web URL, local
text file, or local PDF. -/
def resolveTarget (env : IngestEnv) (target : String) (is_url is_txt : Bool) :
    ExtractionResult :=
  if is_url && (is_pdf_url env.probe target).1 then
    let tc := download_pdf env.dl target
    ⟨tc.1, tc.2, some target⟩
  else if is_url then
    let tc := (extract_web_text env.static env.render).1
    ⟨tc.1, tc.2, some target⟩
  else if is_txt then ⟨guess_title_from_pdf target, env.fileText, none⟩
  else ⟨guess_title_from_pdf target, env.localPdfText, none⟩

/-- The metadata branch of `process_one`: explicit `--title` override,
batch auto-title, or interactive prompt with source-URL backfill. -/
def assembleMetadata (args : IngestArgs) (inp : PromptIn) (auto_title : String)
    (auto_source_url : Option String) : ArticleMeta :=
  if pyTruthy args.title then
    { title := args.title.getD ("")
      author := args.author
      category := args.category
      source := args.source
      source_url := pyOr args.source_url auto_source_url }
  else if args.batch then
    { title := auto_title
      author := args.author
      category := args.category
      source := args.source
      source_url := pyOr args.source_url auto_source_url }
  else
    let m := prompt_metadata inp auto_title
    if !pyTruthy m.source_url && pyTruthy auto_source_url then
      { m with source_url := auto_source_url }
    else m

/-- `process_one(target, args, ...)` from `scripts/ingest.py`, up to the
payload handed to `send_to_ingest`; `none` models the early return when
no text was extracted. -/
def process_one (env : IngestEnv) (args : IngestArgs) (target0 : String) :
    Option IngestPayload :=
  let is_url := pyStartsWith target0 ("http://") || pyStartsWith target0 ("https://")
  let is_txt := !is_url && pyEndsWith (pyLower target0) (".txt")
  let target := if is_url then normalize_url target0 else target0
  let ex := resolveTarget env target is_url is_txt
  if pyStrip ex.content = "" then none
  else
    let meta := assembleMetadata args env.promptIn ex.auto_title ex.auto_source_url
    some ⟨meta.title, meta.author, meta.category, meta.source, meta.source_url, ex.content⟩

/-! ## The batch loops (`scripts/batch_ingest.py` `main`, and the
worklist loop of `scripts/ingest.py` `main`)

Both loops wrap the processing of one item in `try: ... except
Exception as e: record and continue`.  Python's `SystemExit` — raised
by `sys.exit` in `_render_js_page` when Playwright is missing — does
not derive from `Exception`, so it escapes the handler and terminates
the whole process.  An `ItemEvent` summarizes how processing one item
behaves. -/

/-- How processing one worklist item behaves. -/
inductive ItemEvent where
  | success
  | emptyContent
  | exn (msg : String)
  | exit (msg : String)
deriving DecidableEq

/-- Does the event model a raised `SystemExit`? -/
def isExit : ItemEvent → Bool
  | .exit _ => true
  | _ => false

/-- The accumulator of the batch loop: which items were attempted, the
success counter, the ordered failure list. -/
structure BatchReport where
  attempted : List String
  succeeded : Nat
  failed : List (String × String)
deriving DecidableEq

/-- The batch loop over `(identifier, behavior)` items.  `Except.ok`
means the loop ran to completion and the final summary is printed;
`Except.error` means an uncaught `SystemExit` terminated the process
mid-loop. -/
def batchLoop : List (String × ItemEvent) → BatchReport →
    Except (BatchReport × String) BatchReport
  | [], st => .ok st
  | (title, ev) :: rest, st =>
    let st := { st with attempted := st.attempted ++ [title] }
    match ev with
    | .success => batchLoop rest { st with succeeded := st.succeeded + 1 }
    | .emptyContent =>
      batchLoop rest { st with failed := st.failed ++ [(title, "No text extracted")] }
    | .exn m => batchLoop rest { st with failed := st.failed ++ [(title, m)] }
    | .exit m => .error (st, m)

/-- A whole batch invocation: `some report` iff the loop finished and
the final summary was produced. -/
def batchRun (items : List (String × ItemEvent)) : Option BatchReport :=
  match batchLoop items ⟨[], 0, []⟩ with
  | .ok st => some st
  | .error _ => none


/-! ## General lemmas -/

theorem stripPfx_self_append (p r : List Char) : stripPfx p (p ++ r) = some r := by
  induction p with
  | nil => rfl
  | cons c ps ih => simp [stripPfx, ih]

theorem stripPfx_eq_some {p l r : List Char} (h : stripPfx p l = some r) : l = p ++ r := by
  induction p generalizing l with
  | nil =>
    simp only [stripPfx] at h
    simp [← Option.some.injEq _ _ |>.mp h]
  | cons c ps ih =>
    cases l with
    | nil => simp [stripPfx] at h
    | cons a t =>
      by_cases hca : c = a
      · subst hca
        simp only [stripPfx, if_pos rfl] at h
        simp [ih h]
      · simp [stripPfx, hca] at h

theorem takeWhile_append_not {p : Char → Bool} {d : List Char} {a : Char} (t : List Char)
    (hd : ∀ c ∈ d, p c = true) (ha : p a = false) :
    (d ++ a :: t).takeWhile p = d := by
  induction d with
  | nil => simp [List.takeWhile_cons, ha]
  | cons c cs ih =>
    have hc : p c = true := hd c (List.mem_cons_self _ _)
    simp only [List.cons_append, List.takeWhile_cons, hc, if_true]
    simp [ih (fun x hx => hd x (List.mem_cons_of_mem _ hx))]

theorem drop_len_append (d r : List Char) : (d ++ r).drop d.length = r := by
  induction d with
  | nil => rfl
  | cons c cs ih => simp [ih]

/-! ## Lemmas about `pmcMatchL` and `normalize_url` (claims C3, C5) -/

theorem pmcMatchRest_some {pre r2 q : List Char} (h : pmcMatchRest pre r2 = some q) :
    ∃ ds, ds ≠ [] ∧ (∀ c ∈ ds, Char.isDigit c = true) ∧ q = pre ++ ds := by
  simp only [pmcMatchRest] at h
  by_cases hds : (r2.takeWhile Char.isDigit).isEmpty = true
  · simp [hds] at h
  · rw [if_neg hds] at h
    cases h3 : stripPfx (("/pdf/").data) (r2.drop (r2.takeWhile Char.isDigit).length) with
    | none => rw [h3] at h; exact absurd h (by simp)
    | some r3 =>
      rw [h3] at h
      by_cases h4 : dotPdfAfterOne r3 = true
      · simp only [h4, if_true, Option.some.injEq] at h
        refine ⟨r2.takeWhile Char.isDigit, ?_, ?_, h.symm⟩
        · intro hnil
          rw [hnil] at hds
          simp at hds
        · intro c hc
          exact List.mem_takeWhile_imp hc
      · simp [h4] at h

theorem pmcMatchRest_slash (pre ds : List Char) (hne : ds ≠ [])
    (hdig : ∀ c ∈ ds, Char.isDigit c = true) :
    pmcMatchRest pre (ds ++ ['/']) = none := by
  have htw : (ds ++ ['/']).takeWhile Char.isDigit = ds :=
    takeWhile_append_not [] hdig (by decide)
  have hie : ds.isEmpty = false := by
    cases ds with
    | nil => exact absurd rfl hne
    | cons a t => rfl
  simp only [pmcMatchRest, htw, hie, Bool.false_eq_true, if_false]
  rw [drop_len_append]
  simp [show stripPfx (("/pdf/").data) ['/'] = none from by decide]

theorem stripPfx_https_of_http (x : List Char) : stripPfx pmcHttps (pmcHttp ++ x) = none := by
  have h1 : pmcHttps =
      'h' :: 't' :: 't' :: 'p' :: 's' :: (("://pmc.ncbi.nlm.nih.gov/articles/PMC").data) := by
    decide
  have h2 : pmcHttp =
      'h' :: 't' :: 't' :: 'p' :: ':' :: (("//pmc.ncbi.nlm.nih.gov/articles/PMC").data) := by
    decide
  rw [h1, h2]
  simp [stripPfx]

theorem pmcMatchL_some {l q : List Char} (h : pmcMatchL l = some q) :
    ∃ pre ds, (pre = pmcHttps ∨ pre = pmcHttp) ∧ ds ≠ [] ∧
      (∀ c ∈ ds, Char.isDigit c = true) ∧ q = pre ++ ds := by
  unfold pmcMatchL at h
  cases h0 : stripPfx pmcHttps l with
  | some r2 =>
    rw [h0] at h
    obtain ⟨ds, h1, h2, h3⟩ := pmcMatchRest_some h
    exact ⟨pmcHttps, ds, Or.inl rfl, h1, h2, h3⟩
  | none =>
    rw [h0] at h
    cases h1 : stripPfx pmcHttp l with
    | some r2 =>
      rw [h1] at h
      obtain ⟨ds, ha, hb, hc⟩ := pmcMatchRest_some h
      exact ⟨pmcHttp, ds, Or.inr rfl, ha, hb, hc⟩
    | none => rw [h1] at h; exact absurd h (by simp)

theorem pmcMatchL_canonical {pre : List Char} (hpre : pre = pmcHttps ∨ pre = pmcHttp)
    (ds : List Char) (hne : ds ≠ []) (hdig : ∀ c ∈ ds, Char.isDigit c = true) :
    pmcMatchL (pre ++ (ds ++ ['/'])) = none := by
  rcases hpre with rfl | rfl
  · unfold pmcMatchL
    rw [stripPfx_self_append]
    exact pmcMatchRest_slash pmcHttps ds hne hdig
  · unfold pmcMatchL
    rw [stripPfx_https_of_http, stripPfx_self_append]
    exact pmcMatchRest_slash pmcHttp ds hne hdig

theorem dotPdfFrom_append {f : List Char} (hnl : ∀ c ∈ f, c ≠ '\n') :
    dotPdfFrom (f ++ (".pdf").data) = true := by
  induction f with
  | nil => decide
  | cons c rest ih =>
    have hc : (c != '\n') = true := by
      simpa using hnl c (List.mem_cons_self _ _)
    simp [dotPdfFrom, hc, ih (fun x hx => hnl x (List.mem_cons_of_mem _ hx))]

theorem dotPdfAfterOne_append {f : List Char} (hf : f ≠ []) (hnl : ∀ c ∈ f, c ≠ '\n') :
    dotPdfAfterOne (f ++ (".pdf").data) = true := by
  cases f with
  | nil => exact absurd rfl hf
  | cons c rest =>
    have hc : (c != '\n') = true := by
      simpa using hnl c (List.mem_cons_self _ _)
    simp [dotPdfAfterOne, hc,
      dotPdfFrom_append (fun x hx => hnl x (List.mem_cons_of_mem _ hx))]

theorem pmcMatchL_viewer (ds f : List Char) (hne : ds ≠ [])
    (hdig : ∀ c ∈ ds, Char.isDigit c = true) (hf : f ≠ []) (hnl : ∀ c ∈ f, c ≠ '\n') :
    pmcMatchL (pmcHttps ++ ds ++ ("/pdf/").data ++ f ++ (".pdf").data) =
      some (pmcHttps ++ ds) := by
  rw [show pmcHttps ++ ds ++ ("/pdf/").data ++ f ++ (".pdf").data =
      pmcHttps ++ (ds ++ (("/pdf/").data ++ (f ++ (".pdf").data))) by
    simp [List.append_assoc]]
  unfold pmcMatchL
  rw [stripPfx_self_append]
  show pmcMatchRest pmcHttps (ds ++ (("/pdf/").data ++ (f ++ (".pdf").data))) =
    some (pmcHttps ++ ds)
  have hpdf : ("/pdf/").data = '/' :: ("pdf/").data := by decide
  have htw : (ds ++ (("/pdf/").data ++ (f ++ (".pdf").data))).takeWhile Char.isDigit = ds := by
    rw [show ds ++ (("/pdf/").data ++ (f ++ (".pdf").data)) =
        ds ++ '/' :: (("pdf/").data ++ (f ++ (".pdf").data)) by simp [hpdf]]
    exact takeWhile_append_not _ hdig (by decide)
  have hie : ds.isEmpty = false := by
    cases ds with
    | nil => exact absurd rfl hne
    | cons a t => rfl
  simp only [pmcMatchRest, htw, hie, Bool.false_eq_true, if_false]
  rw [drop_len_append, stripPfx_self_append]
  simp [dotPdfAfterOne_append hf hnl]

/-- Claim C3 counterexample: the claim promises the rewrite for every
host, and picks `https://host/articles/PMC123456/pdf/foo.pdf` as its
exemplar; on that very URL `normalize_url` returns the input unchanged
(the pattern is specific to the host `pmc.ncbi.nlm.nih.gov`), not the
parent article path. -/
theorem claim_c3_counterexample :
    normalize_url ("https://host/articles/PMC123456/pdf/foo.pdf") =
      ("https://host/articles/PMC123456/pdf/foo.pdf") ∧
    ("https://host/articles/PMC123456/pdf/foo.pdf" : String) ≠
      ("https://host/articles/PMC123456/") := by
  constructor
  · decide
  · decide

/-- Claim C3 (amended): the rewrite applies only to the PMC host — for
every URL `https://pmc.ncbi.nlm.nih.gov/articles/PMC<digits>/pdf/<file>.pdf`
(nonempty digit run, nonempty newline-free file part), `normalize_url`
returns the parent article path
`https://pmc.ncbi.nlm.nih.gov/articles/PMC<digits>/`; URLs on other
hosts are returned unchanged. -/
theorem claim_c3_amended (ds f : List Char) (hne : ds ≠ [])
    (hdig : ∀ c ∈ ds, Char.isDigit c = true) (hf : f ≠ []) (hnl : ∀ c ∈ f, c ≠ '\n') :
    normalize_url ⟨("https://pmc.ncbi.nlm.nih.gov/articles/PMC").data ++ ds ++
        ("/pdf/").data ++ f ++ (".pdf").data⟩ =
      ⟨("https://pmc.ncbi.nlm.nih.gov/articles/PMC").data ++ ds ++ ['/']⟩ := by
  have hlit : ("https://pmc.ncbi.nlm.nih.gov/articles/PMC").data = pmcHttps := rfl
  rw [hlit]
  unfold normalize_url
  rw [show (String.mk (pmcHttps ++ ds ++ ("/pdf/").data ++ f ++ (".pdf").data)).data =
      pmcHttps ++ ds ++ ("/pdf/").data ++ f ++ (".pdf").data from rfl]
  rw [pmcMatchL_viewer ds f hne hdig hf hnl]

/-- Claim C3 witness: the amended theorem applied to the digit run
`123456` and filename `foo`, on the PMC host. -/
theorem claim_c3_witness :
    normalize_url ("https://pmc.ncbi.nlm.nih.gov/articles/PMC123456/pdf/foo.pdf") =
      ("https://pmc.ncbi.nlm.nih.gov/articles/PMC123456/") := by
  have h := claim_c3_amended (("123456").data) (("foo").data)
    (by decide) (by decide) (by decide) (by decide)
  have e1 : (⟨("https://pmc.ncbi.nlm.nih.gov/articles/PMC").data ++ ("123456").data ++
      ("/pdf/").data ++ ("foo").data ++ (".pdf").data⟩ : String) =
      ("https://pmc.ncbi.nlm.nih.gov/articles/PMC123456/pdf/foo.pdf") := by decide
  have e2 : (⟨("https://pmc.ncbi.nlm.nih.gov/articles/PMC").data ++ ("123456").data ++
      ['/']⟩ : String) = ("https://pmc.ncbi.nlm.nih.gov/articles/PMC123456/") := by decide
  rw [e1, e2] at h
  exact h

/-- Claim C5: URL normalization is idempotent — for every URL `u`,
`normalize_url (normalize_url u) = normalize_url u`; in particular an
already-canonical URL is returned unchanged. -/
theorem claim_c5_normalize_idempotent (u : String) :
    normalize_url (normalize_url u) = normalize_url u := by
  cases h : pmcMatchL u.data with
  | none => simp [normalize_url, h]
  | some p =>
    obtain ⟨pre, ds, hpre, hne, hdig, rfl⟩ := pmcMatchL_some h
    have hnone : pmcMatchL (pre ++ (ds ++ ['/'])) = none :=
      pmcMatchL_canonical hpre ds hne hdig
    simp [normalize_url, h, hnone]

/-! ## Claim C6: PDF classification -/

/-- Claim C6: for a URL whose (lower-cased) path ends in `.pdf`,
classification as a PDF returns true purely from the suffix with zero
HEAD probes issued, whatever the probe oracle would answer; and when
the suffix check fails, a probe failure (network error, timeout) yields
the classification false — not an error. -/
theorem claim_c6_pdf_classification (url : String) (probe : ProbeResult) :
    ((".pdf").data.isSuffixOf (pyLower (pyUrlPath url)).data = true →
      is_pdf_url probe url = (true, 0)) ∧
    ((".pdf").data.isSuffixOf (pyLower (pyUrlPath url)).data = false →
      is_pdf_url ProbeResult.err url = (false, 1)) := by
  constructor
  · intro h
    simp [is_pdf_url, h]
  · intro h
    simp [is_pdf_url, h]

/-- Claim C6 witness: a real `.pdf` worklist URL classifies as PDF with
no probe even when the probe would fail; a non-`.pdf` URL with a
failing probe classifies as not-a-PDF; and the `;params` cases — a
`.pdf` path carrying params still ends in `.pdf` after the params are
split off, while a path whose `.pdf` lies inside the params falls back
to the (failing) probe. -/
theorem claim_c6_witness :
    is_pdf_url ProbeResult.err
        ("https://bjsm.bmj.com/content/bjsports/51/4/211.full.pdf") = (true, 0) ∧
    is_pdf_url ProbeResult.err ("http://www.academia.edu/23698675/") = (false, 1) ∧
    is_pdf_url ProbeResult.err ("https://h/a.pdf;x") = (true, 0) ∧
    is_pdf_url ProbeResult.err ("https://h/a;b.pdf") = (false, 1) := by
  refine ⟨?_, ?_, ?_, ?_⟩
  · exact (claim_c6_pdf_classification _ ProbeResult.err).1 (by decide)
  · exact (claim_c6_pdf_classification _ ProbeResult.err).2 (by decide)
  · exact (claim_c6_pdf_classification _ ProbeResult.err).1 (by decide)
  · exact (claim_c6_pdf_classification _ ProbeResult.err).2 (by decide)

/-! ## Claim C7: the rendered-fallback threshold -/

set_option maxRecDepth 20000 in
/-- Claim C7 counterexample: a static body text of exactly 200
characters (one letter padded with 199 trailing spaces) is "200
characters or longer", yet the rendered fallback is invoked (the code
thresholds on the trimmed length, which is 1 here), contradicting the
claim that the fallback is never invoked for bodies of 200+ characters. -/
theorem claim_c7_counterexample :
    (⟨'a' :: List.replicate 199 ' '⟩ : String).length = 200 ∧
    (extract_web_text (("t"), ⟨'a' :: List.replicate 199 ' '⟩) (("rt"), ("rb"))).2 = 1 := by
  constructor
  · decide
  · decide

/-- Claim C7 (amended): the 200-character threshold applies to the
trimmed static body text — when `len(text.strip())` is below 200 the
rendered fallback is invoked exactly once and its (title, body) result
is returned; when it is at least 200 the fallback is never invoked and
the static result is returned. -/
theorem claim_c7_amended (static rendered : String × String) :
    ((pyStrip static.2).length < _MIN_CONTENT_LENGTH →
      extract_web_text static rendered = (rendered, 1)) ∧
    (_MIN_CONTENT_LENGTH ≤ (pyStrip static.2).length →
      extract_web_text static rendered = (static, 0)) := by
  constructor
  · intro h
    simp [extract_web_text, Nat.not_le.mpr h]
  · intro h
    simp [extract_web_text, h]

set_option maxRecDepth 20000 in
/-- Claim C7 witness: the amended theorem at a short static text
(fallback used once) and at a 200-character trimmed text (fallback
never used). -/
theorem claim_c7_witness :
    extract_web_text (("t"), ("short")) (("rt"), ("rb")) = ((("rt"), ("rb")), 1) ∧
    extract_web_text (("t"), ⟨List.replicate 200 'x'⟩) (("rt"), ("rb")) =
      ((("t"), ⟨List.replicate 200 'x'⟩), 0) := by
  constructor
  · exact (claim_c7_amended _ _).1 (by decide)
  · exact (claim_c7_amended _ _).2 (by decide)

/-! ## Claim C8: boundary slicing partitions the document -/

/-- Claim C8: on a 20-line document the boundaries (1,10) and (11,20)
produce exactly two raw (pre-clean) slices, lines 1–10 and 11–20,
which cover every line exactly once — no overlap and no gap. -/
theorem claim_c8_partition (lines : List String) (h : lines.length = 20) :
    segmentRawSlices lines [(1, 10), (11, 20)] = [lines.take 10, lines.drop 10] ∧
    lines.take 10 ++ lines.drop 10 = lines ∧
    (lines.take 10).length = 10 ∧ (lines.drop 10).length = 10 := by
  have hd : (lines.drop 10).length = 10 := by simp [h]
  have ht : (lines.take 10).length = 10 := by simp [h]
  have h2 : (lines.drop 10).take 10 = lines.drop 10 := List.take_of_length_le (le_of_eq hd)
  refine ⟨?_, List.take_append_drop 10 lines, ht, hd⟩
  simp only [segmentRawSlices, sliceLines, List.map_cons, List.map_nil]
  norm_num [h2]

/-- Claim C8 witness: the partition at a concrete 20-line document. -/
theorem claim_c8_witness :
    segmentRawSlices (List.replicate 20 ("ln")) [(1, 10), (11, 20)] =
      [(List.replicate 20 ("ln")).take 10, (List.replicate 20 ("ln")).drop 10] ∧
    (List.replicate 20 ("ln")).take 10 ++ (List.replicate 20 ("ln")).drop 10 =
      List.replicate 20 ("ln") ∧
    ((List.replicate 20 ("ln")).take 10).length = 10 ∧
    ((List.replicate 20 ("ln")).drop 10).length = 10 :=
  claim_c8_partition _ (by decide)

/-! ## Claim C9: empty-after-cleaning sections are skipped -/

theorem kidsStep_empty {lines : List String} {ok : GuideSection → Bool}
    {st : KidsReport} {sec : GuideSection}
    (h : pyStrip (sectionClean lines sec) = "") : kidsStep lines ok st sec = st := by
  simp [kidsStep, h]

/-- Claim C9: a section whose cleaned text is empty after trimming is
omitted from the segmenter's output and no submission is attempted for
it, without any error: deleting the section from the table changes
neither the segmenter's output nor the final counters and submission
attempts of the whole run — the remaining sections are processed as
before. -/
theorem claim_c9_empty_section_skipped (lines : List String) (s1 s2 : List GuideSection)
    (sec : GuideSection) (ok : GuideSection → Bool)
    (h : pyStrip (sectionClean lines sec) = "") :
    segmentSections lines (s1 ++ sec :: s2) = segmentSections lines (s1 ++ s2) ∧
    kidsRun lines (s1 ++ sec :: s2) ok = kidsRun lines (s1 ++ s2) ok := by
  constructor
  · simp [segmentSections, h]
  · simp [kidsRun, List.foldl_append, kidsStep_empty h]

/-- Claim C9 witness: a two-section table over a two-line document where
the second-listed section cleans to whitespace only — the run equals
the run without it, and the segmenter omits it. -/
theorem claim_c9_witness :
    segmentSections [("x\n"), ("\n")]
        ([⟨("good"), 1, 1, ("kids"), ("CFK"), ("TG")⟩] ++
          ⟨("empty"), 2, 2, ("kids"), ("CFK"), ("TG")⟩ :: []) =
      segmentSections [("x\n"), ("\n")] ([⟨("good"), 1, 1, ("kids"), ("CFK"), ("TG")⟩] ++ []) ∧
    kidsRun [("x\n"), ("\n")]
        ([⟨("good"), 1, 1, ("kids"), ("CFK"), ("TG")⟩] ++
          ⟨("empty"), 2, 2, ("kids"), ("CFK"), ("TG")⟩ :: []) (fun _ => true) =
      kidsRun [("x\n"), ("\n")] ([⟨("good"), 1, 1, ("kids"), ("CFK"), ("TG")⟩] ++ [])
        (fun _ => true) :=
  claim_c9_empty_section_skipped [("x\n"), ("\n")] _ [] _ (fun _ => true) (by decide)

/-! ## Claims C10 and C1: the batch loop -/

theorem batchLoop_all_success (l : List (String × ItemEvent)) :
    ∀ st : BatchReport, (∀ p ∈ l, p.2 = ItemEvent.success) →
      batchLoop l st =
        .ok ⟨st.attempted ++ l.map Prod.fst, st.succeeded + l.length, st.failed⟩ := by
  induction l with
  | nil =>
    intro st _
    simp [batchLoop]
  | cons x rest ih =>
    intro st h
    obtain ⟨title, ev⟩ := x
    have hev : ev = ItemEvent.success := h _ (List.mem_cons_self _ _)
    subst hev
    simp only [batchLoop]
    rw [ih _ (fun p hp => h p (List.mem_cons_of_mem _ hp))]
    simp [List.append_assoc]
    omega

theorem batchLoop_split (a b : List (String × ItemEvent)) :
    ∀ st : BatchReport, batchLoop (a ++ b) st =
      match batchLoop a st with
      | .ok st1 => batchLoop b st1
      | .error e => .error e := by
  induction a with
  | nil =>
    intro st
    simp [batchLoop]
  | cons x rest ih =>
    intro st
    obtain ⟨title, ev⟩ := x
    cases ev <;> simp [batchLoop, ih]

/-- Claim C10: over a worklist where item k's submission raises an
exception and every other item succeeds, the loop still attempts every
item exactly once (the attempted list is the whole worklist in order),
the final summary is produced, and the report records exactly one
failure, identified by item k with its error message. -/
theorem claim_c10_failure_isolation (pre post : List (String × ItemEvent))
    (t m : String)
    (hpre : ∀ p ∈ pre, p.2 = ItemEvent.success)
    (hpost : ∀ p ∈ post, p.2 = ItemEvent.success) :
    batchRun (pre ++ (t, ItemEvent.exn m) :: post) =
      some ⟨pre.map Prod.fst ++ t :: post.map Prod.fst,
            pre.length + post.length, [(t, m)]⟩ := by
  unfold batchRun
  rw [batchLoop_split]
  rw [batchLoop_all_success pre _ hpre]
  simp only [batchLoop]
  rw [batchLoop_all_success post _ hpost]
  simp [List.append_assoc]

/-- Claim C10 witness: a three-item worklist whose middle submission
raises `HTTP 500`; all three are attempted, two succeed, the report
holds the single failure. -/
theorem claim_c10_witness :
    batchRun [(("a"), ItemEvent.success), (("b"), ItemEvent.exn ("HTTP 500")),
        (("c"), ItemEvent.success)] =
      some ⟨[("a"), ("b"), ("c")], 2, [(("b"), ("HTTP 500"))]⟩ := by
  have h := claim_c10_failure_isolation [(("a"), ItemEvent.success)]
    [(("c"), ItemEvent.success)] ("b") ("HTTP 500") (by decide) (by decide)
  simpa using h

theorem batchLoop_exit (post : List (String × ItemEvent)) (t m : String) :
    ∀ (pre : List (String × ItemEvent)) (st : BatchReport),
      (∀ p ∈ pre, isExit p.2 = false) →
      ∃ stf, batchLoop (pre ++ (t, ItemEvent.exit m) :: post) st = .error (stf, m) ∧
        stf.attempted = st.attempted ++ pre.map Prod.fst ++ [t] := by
  intro pre
  induction pre with
  | nil =>
    intro st _
    exact ⟨⟨st.attempted ++ [t], st.succeeded, st.failed⟩, by simp [batchLoop], by simp⟩
  | cons x rest ih =>
    intro st hpre
    obtain ⟨title, ev⟩ := x
    have hrest : ∀ p ∈ rest, isExit p.2 = false :=
      fun p hp => hpre p (List.mem_cons_of_mem _ hp)
    cases ev with
    | success =>
      obtain ⟨stf, h1, h2⟩ :=
        ih { st with attempted := st.attempted ++ [title], succeeded := st.succeeded + 1 } hrest
      exact ⟨stf, by simpa [batchLoop] using h1, by simp [h2, List.append_assoc]⟩
    | emptyContent =>
      obtain ⟨stf, h1, h2⟩ :=
        ih { st with attempted := st.attempted ++ [title],
                     failed := st.failed ++ [(title, ("No text extracted"))] } hrest
      exact ⟨stf, by simpa [batchLoop] using h1, by simp [h2, List.append_assoc]⟩
    | exn m2 =>
      obtain ⟨stf, h1, h2⟩ :=
        ih { st with attempted := st.attempted ++ [title],
                     failed := st.failed ++ [(title, m2)] } hrest
      exact ⟨stf, by simpa [batchLoop] using h1, by simp [h2, List.append_assoc]⟩
    | exit m2 =>
      exact absurd (hpre _ (List.mem_cons_self _ _)) (by simp [isExit])

/-- Claim C1 counterexample: a two-item batch whose first item needs
rendering without Playwright available — `sys.exit` raises SystemExit,
which `except Exception` does not catch, so the loop terminates at that
item: the second item is never attempted (`attempted = ["a"]`) and no
final summary is produced (`batchRun` returns no report), contradicting
the claim that the failure is fatal only for the affected item. -/
theorem claim_c1_counterexample :
    batchLoop [(("a"), ItemEvent.exit ("playwright missing")),
        (("b"), ItemEvent.success)] ⟨[], 0, []⟩ =
      .error (⟨[("a")], 0, []⟩, ("playwright missing")) ∧
    batchRun [(("a"), ItemEvent.exit ("playwright missing")),
        (("b"), ItemEvent.success)] = none := by
  constructor
  · rfl
  · rfl

/-- Claim C1 (amended): when headless rendering is required during a
batch run but Playwright is unavailable, the `sys.exit` in
`_render_js_page` raises SystemExit, which the per-item
`except Exception` handler does not catch: the whole invocation
terminates at the affected item — the items before it were attempted,
the items after it are never attempted, and no final summary is
produced. -/
theorem claim_c1_amended (pre post : List (String × ItemEvent)) (t m : String)
    (hpre : ∀ p ∈ pre, isExit p.2 = false) :
    batchRun (pre ++ (t, ItemEvent.exit m) :: post) = none ∧
    ∃ stf, batchLoop (pre ++ (t, ItemEvent.exit m) :: post) ⟨[], 0, []⟩ = .error (stf, m) ∧
      stf.attempted = pre.map Prod.fst ++ [t] := by
  obtain ⟨stf, h1, h2⟩ := batchLoop_exit post t m pre ⟨[], 0, []⟩ hpre
  refine ⟨?_, stf, h1, by simpa using h2⟩
  unfold batchRun
  rw [h1]

/-- Claim C1 witness: a three-item batch whose middle item hits the
missing-Playwright exit — only the first two items appear in the
attempted list and no report is produced. -/
theorem claim_c1_witness :
    batchRun [(("p"), ItemEvent.success), (("a"), ItemEvent.exit ("no playwright")),
        (("z"), ItemEvent.success)] = none ∧
    batchLoop [(("p"), ItemEvent.success), (("a"), ItemEvent.exit ("no playwright")),
        (("z"), ItemEvent.success)] ⟨[], 0, []⟩ =
      .error (⟨[("p"), ("a")], 1, []⟩, ("no playwright")) :=
  ⟨(claim_c1_amended [(("p"), ItemEvent.success)] [(("z"), ItemEvent.success)]
      ("a") ("no playwright") (by decide)).1, rfl⟩

/-! ## Claim C4: OCR cleanup idempotence -/

theorem if_true_nl {α : Sort _} {c : Char} [Decidable (c = c)] (x y : α) :
    (if c = c then x else y) = x := if_pos rfl

theorem noRun4From_mono {l : List Char} :
    ∀ {j k : Nat}, j ≤ k → noRun4From l k = true → noRun4From l j = true := by
  induction l with
  | nil => intro j k _ _; rfl
  | cons c rest ih =>
    intro j k hjk h
    by_cases hc : c = '\n'
    · subst hc
      simp only [noRun4From, if_true_nl, if_true, Bool.and_eq_true, decide_eq_true_eq] at h ⊢
      exact ⟨by omega, ih (by omega) h.2⟩
    · simp only [noRun4From, if_neg hc] at h ⊢
      exact h

theorem noRun4From_append_left {a : List Char} :
    ∀ {b : List Char} {k : Nat}, noRun4From (a ++ b) k = true → noRun4From a k = true := by
  induction a with
  | nil => intro b k _; rfl
  | cons c rest ih =>
    intro b k h
    by_cases hc : c = '\n'
    · subst hc
      simp only [List.cons_append, noRun4From, if_true_nl, if_true, Bool.and_eq_true] at h ⊢
      exact ⟨h.1, ih h.2⟩
    · simp only [List.cons_append, noRun4From, if_neg hc] at h ⊢
      exact ih h

theorem noRun4From_append_right {a : List Char} :
    ∀ {b : List Char} {k : Nat}, noRun4From (a ++ b) k = true → noRun4From b 0 = true := by
  induction a with
  | nil => intro b k h; exact noRun4From_mono (Nat.zero_le k) h
  | cons c rest ih =>
    intro b k h
    by_cases hc : c = '\n'
    · subst hc
      simp only [List.cons_append, noRun4From, if_true_nl, if_true, Bool.and_eq_true] at h
      exact ih h.2
    · simp only [List.cons_append, noRun4From, if_neg hc] at h
      exact ih h

theorem noRun4From_replicate {j k : Nat} (h : j + k ≤ 3) :
    noRun4From (List.replicate j '\n') k = true := by
  induction j generalizing k with
  | zero => rfl
  | succ n ih =>
    simp only [List.replicate_succ, noRun4From, if_true_nl, if_true, Bool.and_eq_true,
      decide_eq_true_eq]
    exact ⟨by omega, ih (by omega)⟩

theorem noRun4From_replicate_cons {j k : Nat} {c : Char} {t : List Char}
    (h : j + k ≤ 3) (hc : c ≠ '\n') (ht : noRun4From t 0 = true) :
    noRun4From (List.replicate j '\n' ++ c :: t) k = true := by
  induction j generalizing k with
  | zero =>
    simp only [List.replicate_zero, List.nil_append, noRun4From, if_neg hc]
    exact ht
  | succ n ih =>
    simp only [List.replicate_succ, List.cons_append, noRun4From, if_true_nl, if_true,
      Bool.and_eq_true, decide_eq_true_eq]
    exact ⟨by omega, ih (by omega)⟩

theorem collapseAux_noRun4 (l : List Char) :
    ∀ k, noRun4From (collapseAux l k) 0 = true := by
  induction l with
  | nil =>
    intro k
    simp only [collapseAux, emitNl]
    by_cases h4 : 4 ≤ k
    · rw [if_pos h4]; exact noRun4From_replicate (by omega)
    · rw [if_neg h4]; exact noRun4From_replicate (by omega)
  | cons c rest ih =>
    intro k
    by_cases hc : c = '\n'
    · subst hc
      simp only [collapseAux, if_true_nl, if_true]
      exact ih (k + 1)
    · simp only [collapseAux, if_neg hc, emitNl]
      by_cases h4 : 4 ≤ k
      · rw [if_pos h4]
        exact noRun4From_replicate_cons (by omega) hc (ih 0)
      · rw [if_neg h4]
        exact noRun4From_replicate_cons (by omega) hc (ih 0)

theorem collapseAux_eq_of_noRun4 (l : List Char) :
    ∀ k, k ≤ 3 → noRun4From l k = true →
      collapseAux l k = List.replicate k '\n' ++ l := by
  induction l with
  | nil =>
    intro k hk _
    simp only [collapseAux, emitNl, if_neg (by omega : ¬ 4 ≤ k), List.append_nil]
  | cons c rest ih =>
    intro k hk h
    by_cases hc : c = '\n'
    · subst hc
      simp only [noRun4From, if_true_nl, if_true, Bool.and_eq_true, decide_eq_true_eq] at h
      simp only [collapseAux, if_true_nl, if_true]
      rw [ih (k + 1) (by omega) h.2, List.replicate_succ']
      simp
    · simp only [noRun4From, if_neg hc] at h
      simp only [collapseAux, if_neg hc, emitNl, if_neg (by omega : ¬ 4 ≤ k)]
      rw [ih 0 (by omega) h]
      simp

theorem collapseNl_eq_of_noRun4 {l : List Char} (h : noRun4From l 0 = true) :
    collapseNl l = l := by
  have := collapseAux_eq_of_noRun4 l 0 (by omega) h
  simpa [collapseNl] using this

theorem dropTrailWs_decomp (l : List Char) :
    l = dropTrailWs l ++ (l.reverse.takeWhile pySpace).reverse := by
  calc l = l.reverse.reverse := (List.reverse_reverse l).symm
  _ = (l.reverse.takeWhile pySpace ++ l.reverse.dropWhile pySpace).reverse := by
      rw [List.takeWhile_append_dropWhile]
  _ = (l.reverse.dropWhile pySpace).reverse ++ (l.reverse.takeWhile pySpace).reverse := by
      rw [List.reverse_append]
  _ = dropTrailWs l ++ (l.reverse.takeWhile pySpace).reverse := rfl

theorem noRun4From_pyStripL {l : List Char} (h : noRun4From l 0 = true) :
    noRun4From (pyStripL l) 0 = true := by
  have h1 : noRun4From (l.dropWhile pySpace) 0 = true := by
    apply noRun4From_append_right (a := l.takeWhile pySpace)
    rw [List.takeWhile_append_dropWhile]
    exact h
  have h2 := dropTrailWs_decomp (l.dropWhile pySpace)
  rw [h2] at h1
  exact noRun4From_append_left h1

theorem dropWhile_head_not {p : Char → Bool} :
    ∀ {l : List Char} {c : Char} {t : List Char}, l.dropWhile p = c :: t → p c = false := by
  intro l
  induction l with
  | nil => intro c t h; simp [List.dropWhile] at h
  | cons a rest ih =>
    intro c t h
    by_cases hp : p a = true
    · rw [List.dropWhile_cons, if_pos hp] at h
      exact ih h
    · rw [List.dropWhile_cons, if_neg hp] at h
      injection h with h1 h2
      subst h1
      simpa using hp

theorem dropWhile_eq_self_of_head {p : Char → Bool} {l : List Char}
    (h : ∀ c t, l = c :: t → p c = false) : l.dropWhile p = l := by
  cases l with
  | nil => rfl
  | cons c t => rw [List.dropWhile_cons, if_neg (by simp [h c t rfl])]

theorem pyStripL_idem (l : List Char) : pyStripL (pyStripL l) = pyStripL l := by
  set d := l.dropWhile pySpace with hd
  set y := dropTrailWs d with hy
  have hyrev : y.reverse = d.reverse.dropWhile pySpace := by
    rw [hy]
    simp [dropTrailWs]
  have hB : y.dropWhile pySpace = y := by
    apply dropWhile_eq_self_of_head
    intro c t hct
    have hdec := dropTrailWs_decomp d
    rw [← hy, hct] at hdec
    exact dropWhile_head_not (l := l) (by rw [← hd, hdec]; rfl)
  have hC : dropTrailWs y = y := by
    have hrev : y.reverse.dropWhile pySpace = y.reverse := by
      apply dropWhile_eq_self_of_head
      intro c t hct
      exact dropWhile_head_not (l := d.reverse) (by rw [← hyrev, hct])
    simp [dropTrailWs, hrev]
  calc pyStripL y = dropTrailWs (y.dropWhile pySpace) := rfl
  _ = dropTrailWs y := by rw [hB]
  _ = y := hC

set_option maxRecDepth 100000 in
set_option maxHeartbeats 2000000 in
/-- Claim C4 counterexample: the cleanup is not idempotent — on
`"  1.0-2a"` the first pass removes nothing but the leading spaces (no
pattern matches, because the version stamp does not start the line),
while the final trim moves `1.0-2a` to the start of the string, where
the second pass's `VERSION_RE` deletes it entirely. -/
theorem claim_c4_counterexample :
    clean_ocr_text (clean_ocr_text ("  1.0-2a")) ≠ clean_ocr_text ("  1.0-2a") := by
  decide

theorem ocrSubs_data (s : String) : (ocrSubs s).data = ocrSubsL s.data := rfl

set_option maxRecDepth 100000 in
set_option maxHeartbeats 2000000 in
theorem clean_ocr_text_data (s : String) : (clean_ocr_text s).data = cleanL s.data := rfl

set_option maxRecDepth 100000 in
set_option maxHeartbeats 2000000 in
/-- Claim C4 (amended): the cleanup is idempotent exactly on inputs
whose cleaned form is a fixed point of the seven artifact-removal
substitutions: if the substitutions leave `clean(x)` unchanged, then
`clean(clean(x)) = clean(x)` (the blank-line collapse and the final trim
are always fixed on cleaned text).  In general a second application can
remove more, because the final trim can move artifact text to the start
of the string. -/
theorem claim_c4_amended (x : String)
    (h : ocrSubs (clean_ocr_text x) = clean_ocr_text x) :
    clean_ocr_text (clean_ocr_text x) = clean_ocr_text x := by
  have hdata := congrArg String.data h
  rw [ocrSubs_data, clean_ocr_text_data] at hdata
  have hno4 : noRun4From (cleanL x.data) 0 = true := by
    have hz : noRun4From (collapseNl (ocrSubsL x.data)) 0 = true := collapseAux_noRun4 _ 0
    exact noRun4From_pyStripL hz
  apply String.ext
  simp only [clean_ocr_text_data]
  calc cleanL (cleanL x.data) = pyStripL (collapseNl (ocrSubsL (cleanL x.data))) := rfl
  _ = pyStripL (collapseNl (cleanL x.data)) := by rw [hdata]
  _ = pyStripL (cleanL x.data) := by rw [collapseNl_eq_of_noRun4 hno4]
  _ = cleanL x.data := pyStripL_idem _

set_option maxRecDepth 100000 in
set_option maxHeartbeats 2000000 in
/-- Claim C4 witness: the amended theorem at `"hello"`, whose cleaned
form the seven substitutions leave unchanged. -/
theorem claim_c4_witness :
    clean_ocr_text (clean_ocr_text ("hello")) = clean_ocr_text ("hello") :=
  claim_c4_amended ("hello") (by decide)

/-! ## Claim C2: non-empty payload titles -/

theorem pyTitleAux_length (l : List Char) : ∀ b, (pyTitleAux l b).length = l.length := by
  induction l with
  | nil => intro b; rfl
  | cons c rest ih => intro b; simp [pyTitleAux, ih]

theorem guess_title_ne_empty {path : String} (h : pathStemL path.data ≠ []) :
    guess_title_from_pdf path ≠ "" := by
  intro he
  have hd : pyTitleL (replaceSepsL (pathStemL path.data)) = [] := congrArg String.data he
  have hlen := congrArg List.length hd
  simp only [pyTitleL, pyTitleAux_length, replaceSepsL, List.length_map,
    List.length_nil] at hlen
  exact h (List.eq_nil_of_length_eq_zero hlen)

theorem prompt_title_ne {inp : PromptIn} {auto_title : String} (h : auto_title ≠ "") :
    (prompt_metadata inp auto_title).title ≠ "" := by
  unfold prompt_metadata
  by_cases he : pyStrip inp.title = ""
  · simpa [he] using h
  · simp [he]

theorem assembleMetadata_title_ne {args : IngestArgs} {inp : PromptIn}
    {auto_title : String} {asu : Option String} (h : auto_title ≠ "") :
    (assembleMetadata args inp auto_title asu).title ≠ "" := by
  unfold assembleMetadata
  by_cases ht : pyTruthy args.title = true
  · rw [if_pos ht]
    cases hat : args.title with
    | none => rw [hat] at ht; simp [pyTruthy] at ht
    | some s =>
      rw [hat] at ht
      simp only [pyTruthy, decide_eq_true_eq] at ht
      simpa using ht
  · rw [if_neg ht]
    by_cases hb : args.batch = true
    · rw [if_pos hb]
      exact h
    · rw [if_neg hb]
      by_cases hs : (!pyTruthy (prompt_metadata inp auto_title).source_url &&
          pyTruthy asu) = true
      · rw [if_pos hs]
        exact prompt_title_ne h
      · rw [if_neg hs]
        exact prompt_title_ne h

/-- Claim C2 counterexample: a batch-mode web target whose page carries
no title element — `_parse_html_response` auto-detects the empty title,
and the payload is assembled and submitted with `title = ""`,
contradicting the claimed non-emptiness invariant. -/
theorem claim_c2_counterexample :
    (process_one ⟨ProbeResult.err, ((""), ("")), ((""), ("somecontent")),
        ⟨(""), false, ((""), ("")), ("")⟩, (""), (""), ⟨(""), (""), (""), (""), ("")⟩⟩
      ⟨none, none, none, none, none, true⟩ ("https://h/x")).map IngestPayload.title =
      some ("") := by
  decide

/-- Claim C2 (amended): the non-empty-title guarantee holds for local
file targets — for every target that is not a URL and has a nonempty
path stem, any payload `process_one` assembles has a non-empty title
(explicit override, filename-derived batch title, and interactive
prompt fallback all yield non-empty titles); for URL targets the
auto-detected title may be empty and is substituted as-is. -/
theorem claim_c2_amended (env : IngestEnv) (args : IngestArgs) (target : String)
    (p : IngestPayload)
    (h1 : pyStartsWith target ("http://") = false)
    (h2 : pyStartsWith target ("https://") = false)
    (h3 : pathStemL target.data ≠ [])
    (hp : process_one env args target = some p) :
    p.title ≠ "" := by
  have hg : guess_title_from_pdf target ≠ "" := guess_title_ne_empty h3
  by_cases htxt : pyEndsWith (pyLower target) (".txt") = true
  · simp only [process_one, h1, h2, Bool.or_self, Bool.false_or, Bool.or_false,
      Bool.false_and, Bool.and_false, if_false, Bool.not_false, Bool.true_and,
      htxt, if_true, resolveTarget, Bool.false_eq_true] at hp
    by_cases hc : pyStrip env.fileText = ""
    · simp [hc] at hp
    · rw [if_neg hc, Option.some.injEq] at hp
      rw [← hp]
      exact assembleMetadata_title_ne hg
  · simp only [process_one, h1, h2, Bool.or_self, Bool.false_or, Bool.or_false,
      Bool.false_and, Bool.and_false, if_false, Bool.not_false, Bool.true_and,
      htxt, resolveTarget, Bool.false_eq_true] at hp
    by_cases hc : pyStrip env.localPdfText = ""
    · simp [hc] at hp
    · rw [if_neg hc, Option.some.injEq] at hp
      rw [← hp]
      exact assembleMetadata_title_ne hg

/-- Claim C2 witness: the amended theorem at the local text file
`notes/my-article.txt` in batch mode — the payload gets the non-empty
filename-derived title `My Article`. -/
theorem claim_c2_witness :
    (⟨("My Article"), none, none, none, none, ("hello")⟩ : IngestPayload).title ≠ "" :=
  claim_c2_amended
    ⟨ProbeResult.err, ((""), ("")), ((""), ("somecontent")),
      ⟨(""), false, ((""), ("")), ("")⟩, ("hello"), (""), ⟨(""), (""), (""), (""), ("")⟩⟩
    ⟨none, none, none, none, none, true⟩ ("notes/my-article.txt")
    ⟨("My Article"), none, none, none, none, ("hello")⟩
    (by decide) (by decide) (by decide) (by decide)
